import Mathlib

/-!
Verification development for the parser / AST / symbol-scope front end of a
small Pascal-like interpreter.  The definitions below are shallow embeddings
of the TypeScript sources:

* `SymbolScope.ts` — nested scopes with case-insensitive declaration and
  value tables (`resolveValue`, `resolveValueThisScopeOnly`, `changeValue`,
  `changeArrayValue`, `findScope`, `insert`, `has`, `resolve`);
* `AST.ts` — the generic AST node substrate with parent back-references and
  the in-place `replace` rewrite, modelled as an arena of nodes addressed by
  stable indices;
* the recursive-descent `Parser` — modelled as fuel-indexed functions over an
  explicit parser state (current token, remaining tokens, previous token).
-/

namespace PSI

/-! ## Case-insensitive maps

The scope tables are `CaseInsensitiveMap`s.  We model such a map as an
association list whose lookups compare keys after lower-casing; `cimSet`
overwrites any existing binding of the (case-insensitive) key. -/

/-- Key normalisation of the case-insensitive maps: keys are compared
lower-cased (character-wise). -/
def lowerStr (s : String) : String := ⟨s.data.map Char.toLower⟩

def keyEq (a b : String) : Bool := lowerStr a == lowerStr b

def cimGet {α : Type} (m : List (String × α)) (k : String) : Option α :=
  (m.find? (fun p => keyEq p.1 k)).map (fun p => p.2)

def cimSet {α : Type} (m : List (String × α)) (k : String) (v : α) :
    List (String × α) :=
  (k, v) :: m.filter (fun p => !keyEq p.1 k)

def cimHas {α : Type} (m : List (String × α)) (k : String) : Bool :=
  (cimGet m k).isSome

/-! ## Runtime values and symbols -/

/-- Runtime data values (`PSIDataType`); the concrete variants live in the
external `data-types` module and are consumed as opaque typed values, so a
small closed set of representative variants suffices. -/
inductive PSIDataType where
  | int (n : Int)
  | real (repr : String)
  | bool (b : Bool)
  | char (c : Char)
  | arr (elems : List PSIDataType)

/-- A declared type as the symbol table sees it: only its optional static
`defaultValue` is consulted (`SymbolScope.insert`). -/
structure PSIType where
  typeName : String
  defaultValue : Option PSIDataType

/-- `PSISymbol`: variable symbols carry their declared type; procedure
symbols are opaque here (their parameters/body are never consulted by the
scope operations under study). -/
inductive PSISymbol where
  | variableSymbol (name : String) (type : PSIType)
  | procedureSymbol (name : String)

def PSISymbol.name : PSISymbol → String
  | .variableSymbol n _ => n
  | .procedureSymbol n => n

/-- An `instanceof` check against an optional symbol-variant filter is a
predicate on the symbol. -/
def symbolMatches (filt : Option (PSISymbol → Bool)) (s : PSISymbol) : Bool :=
  match filt with
  | none => true
  | some p => p s

/-! ## Scopes

A `SymbolScope` holds a declaration table (`scope`), a value table (`value`)
and a parent pointer.  We represent the receiver scope together with its
ancestor chain as a list of frames, innermost first: index 0 is the receiver,
the last frame is the global scope (whose parent is null). -/

structure Frame where
  frameName : String
  scope : List (String × PSISymbol)
  value : List (String × PSIDataType)

/-- Placeholder frame for out-of-range chain indexing (never reached: the
indices used below always come from `findScopeIdx`, which stays in range). -/
def nullFrame : Frame := ⟨"", [], []⟩

/-- The JS truthiness test `result && type ? result instanceof type : true`
from `resolveValue`, kept exactly as written: `&&` binds tighter than `?:`,
so when `result` is absent (or no filter is given) the whole condition is
`true` and the raw `result` is returned. -/
def resolveValueCond (result : Option PSIDataType)
    (filt : Option (PSIDataType → Bool)) : Bool :=
  match result, filt with
  | some v, some p => p v
  | _, _ => true

/-- `SymbolScope.resolveValue(name, type?)`, transcribed with the unparenthesised
ternary condition of the source: look up `name` in this scope's value table;
if the condition holds return the (possibly absent) result; otherwise
delegate to the parent when there is one, else return null. -/
def resolveValue (chain : List Frame) (name : String)
    (filt : Option (PSIDataType → Bool)) : Option PSIDataType :=
  match chain with
  | [] => none
  | f :: rest =>
    let result := cimGet f.value name
    if resolveValueCond result filt then
      result
    else if rest.isEmpty then
      none
    else
      resolveValue rest name filt

/-- `SymbolScope.resolveValueThisScopeOnly(name)`: strictly local value
lookup, `result || null`. -/
def resolveValueThisScopeOnly (f : Frame) (name : String) : Option PSIDataType :=
  cimGet f.value name

/-- `SymbolScope.resolve(name, symbolType?)`: declaration-table lookup that
walks outward.  Its condition is parenthesised in the source —
`result && (symbolType ? result instanceof symbolType : true)` — so an absent
entry does fall through to the parent. -/
def resolve (chain : List Frame) (name : String)
    (filt : Option (PSISymbol → Bool)) : Option PSISymbol :=
  match chain with
  | [] => none
  | f :: rest =>
    match cimGet f.scope name with
    | some result =>
      if symbolMatches filt result then some result
      else if rest.isEmpty then none
      else resolve rest name filt
    | none =>
      if rest.isEmpty then none
      else resolve rest name filt

/-- `SymbolScope.findScope(name)`: walk the declaration-table chain outward,
returning the first scope whose own declaration table contains `name` (as an
index into the chain), or null. -/
def findScopeIdx (chain : List Frame) (name : String) : Option Nat :=
  match chain with
  | [] => none
  | f :: rest =>
    if cimHas f.scope name then some 0
    else (findScopeIdx rest name).map (fun i => i + 1)

/-- A crash of a non-null assertion (`!`) — an unstructured runtime
`TypeError`, distinct from the scope model's own `PSIError`s. -/
inductive NullAssertionCrash where
  | findScopeNull
  | valueNull
  deriving DecidableEq, Repr

/-- `SymbolScope.changeValue(name, value)`:
`this.findScope(name)!.value.set(name, value)` — the declaring scope's value
table is overwritten; if no scope in the chain declares `name` the non-null
assertion crashes. -/
def changeValue (chain : List Frame) (name : String) (v : PSIDataType) :
    Except NullAssertionCrash (List Frame) :=
  match findScopeIdx chain name with
  | none => .error .findScopeNull
  | some i =>
    let f := chain.getD i nullFrame
    .ok (chain.set i { f with value := cimSet f.value name v })

/-- Modelled from the spec: the array container type (external `data-types`
module, not under `src/`) mutates the element addressed by an ordered
sequence of index values, supporting multi-dimensional indexing; mutation is
in place (here: the container value is replaced by its updated form). -/
def arrayContainerChange : PSIDataType → List PSIDataType → PSIDataType →
    PSIDataType
  | _, [], v => v
  | .arr es, .int i :: restAcc, v =>
    if h : 0 ≤ i ∧ i.toNat < es.length then
      .arr (es.set i.toNat (arrayContainerChange (es.get ⟨i.toNat, h.2⟩) restAcc v))
    else .arr es
  | a, _, _ => a

/-- `SymbolScope.changeArrayValue(arrayName, accessors, value)`: resolve the
declaring scope (non-null assertion), fetch its local value (non-null
assertion), and delegate the index mutation to the container. -/
def changeArrayValue (chain : List Frame) (arrayName : String)
    (accessors : List PSIDataType) (v : PSIDataType) :
    Except NullAssertionCrash (List Frame) :=
  match findScopeIdx chain arrayName with
  | none => .error .findScopeNull
  | some i =>
    let f := chain.getD i nullFrame
    match resolveValueThisScopeOnly f arrayName with
    | none => .error .valueNull
    | some array =>
      let mutated := arrayContainerChange array accessors v
      .ok (chain.set i { f with value := cimSet f.value arrayName mutated })

/-- The scope model's structured error (`PSIError` raised by `insert`). -/
inductive ScopeError where
  | redeclaration (sym : PSISymbol) (message : String)

/-- `SymbolScope.has(symbol)`: case-insensitive membership of the symbol's
name in this scope's own declaration table. -/
def Frame.hasSymbol (f : Frame) (sym : PSISymbol) : Bool :=
  cimHas f.scope sym.name

/-- The value-table seeding performed by a successful `insert`: a variable
symbol whose declared type has a (truthy) static default value seeds the
value table with that default; any other symbol leaves it unchanged. -/
def seededValue (f : Frame) (sym : PSISymbol) : List (String × PSIDataType) :=
  match sym with
  | .variableSymbol _ t =>
    match t.defaultValue with
    | some d => cimSet f.value sym.name d
    | none => f.value
  | _ => f.value

/-- `SymbolScope.insert(symbol)`: fail with a redeclaration error when the
name already exists in this scope's declaration table; otherwise insert, and
when the symbol is a variable symbol whose type has a default value, seed the
value table with that default. -/
def insert (f : Frame) (sym : PSISymbol) : Except ScopeError Frame :=
  if f.hasSymbol sym then
    .error (.redeclaration sym ("Symbol " ++ sym.name ++ " is being redeclared"))
  else
    .ok { f with
      scope := cimSet f.scope sym.name sym
      value := seededValue f sym }

end PSI

namespace ASTree

/-!  ## The AST node substrate (`AST.ts`)

A node owns an ordered child sequence and keeps a non-owning parent
back-reference.  Reference identity in the source becomes identity of a
stable arena index: an arena is a list of nodes, and node `i`'s links name
other indices. -/

/-- One node's tree links (`_children` and `parent`). -/
structure TreeNode where
  parent : Option Nat
  children : List Nat
  deriving DecidableEq, Repr

/-- `throw new Error('Invalid tree configuration')`. -/
inductive TreeError where
  | invalidTreeConfiguration
  deriving DecidableEq, Repr

def emptyNode : TreeNode := ⟨none, []⟩

/-- `AST.addChild(...children)`: append each child to the receiver's child
sequence and point its parent back-reference at the receiver. -/
def addChild (arena : List TreeNode) (selfId : Nat) (childIds : List Nat) :
    List TreeNode :=
  match childIds with
  | [] => arena
  | c :: rest =>
    let child := arena.getD c emptyNode
    let arena1 := arena.set c { child with parent := some selfId }
    let self := arena1.getD selfId emptyNode
    let arena2 := arena1.set selfId { self with children := self.children ++ [c] }
    addChild arena2 selfId rest

/-- `AST.replace(node)`: require a parent; find the receiver in the parent's
child sequence by identity; overwrite that position with `node`; null out the
receiver's parent.  The replacement node's own parent link is not touched. -/
def replaceNode (arena : List TreeNode) (selfId nodeId : Nat) :
    Except TreeError (List TreeNode) :=
  let self := arena.getD selfId emptyNode
  match self.parent with
  | none => .error .invalidTreeConfiguration
  | some parentId =>
    let par := arena.getD parentId emptyNode
    match par.children.findIdx? (fun c => c == selfId) with
    | none => .error .invalidTreeConfiguration
    | some index =>
      let arena1 := arena.set parentId
        { par with children := par.children.set index nodeId }
      let self1 := arena1.getD selfId emptyNode
      .ok (arena1.set selfId { self1 with parent := none })

end ASTree

namespace Parser

/-! ## Tokens

Tokens are position-tagged (`start`/`end`, each a line/character pair) and
classified by a closed set of lexical classes; a few classes carry a literal
value. -/

structure Position where
  linePosition : Int
  characterPosition : Int
  deriving DecidableEq, Repr

structure Span where
  start : Position
  endPos : Position
  deriving DecidableEq, Repr

inductive TokenKind where
  | programTk
  | idTk (value : String)
  | semiTk | colonTk | commaTk | dotTk
  | beginTk | endTk | varTk | procedureTk
  | integerTk | realTk | booleanTk | charTk
  | ifTk | thenTk | elseTk | forTk | toTk | downToTk | doTk
  | whileTk | repeatTk | untilTk
  | assignTk | plusTk | minusTk | orTk
  | multiplicationTk | integerDivisionTk | realDivisionTk | modTk | andTk
  | equalsTk | notEqualsTk | greaterThanTk | lessThanTk
  | greaterEqualsTk | lessEqualsTk
  | openingParenthesisTk | closingParenthesisTk
  | integerConstTk (value : Int)
  | realConstTk (value : String)
  | charConstantTk (value : String)
  | trueTk | falseTk | notTk | eofTk
  deriving DecidableEq, Repr

/-- The token classes used in `instanceof` checks and `eat` arguments. -/
inductive TokenClass where
  | programC | idC | semiC | colonC | commaC | dotC
  | beginC | endC | varC | procedureC
  | integerC | realC | booleanC | charC
  | ifC | thenC | elseC | forC | toC | downToC | doC
  | whileC | repeatC | untilC
  | assignC | plusC | minusC | orC
  | multiplicationC | integerDivisionC | realDivisionC | modC | andC
  | equalsC | notEqualsC | greaterThanC | lessThanC
  | greaterEqualsC | lessEqualsC
  | openingParenthesisC | closingParenthesisC
  | integerConstC | realConstC | charConstantC
  | trueC | falseC | notC | eofC
  deriving DecidableEq, Repr

def classOf : TokenKind → TokenClass
  | .programTk => .programC
  | .idTk _ => .idC
  | .semiTk => .semiC
  | .colonTk => .colonC
  | .commaTk => .commaC
  | .dotTk => .dotC
  | .beginTk => .beginC
  | .endTk => .endC
  | .varTk => .varC
  | .procedureTk => .procedureC
  | .integerTk => .integerC
  | .realTk => .realC
  | .booleanTk => .booleanC
  | .charTk => .charC
  | .ifTk => .ifC
  | .thenTk => .thenC
  | .elseTk => .elseC
  | .forTk => .forC
  | .toTk => .toC
  | .downToTk => .downToC
  | .doTk => .doC
  | .whileTk => .whileC
  | .repeatTk => .repeatC
  | .untilTk => .untilC
  | .assignTk => .assignC
  | .plusTk => .plusC
  | .minusTk => .minusC
  | .orTk => .orC
  | .multiplicationTk => .multiplicationC
  | .integerDivisionTk => .integerDivisionC
  | .realDivisionTk => .realDivisionC
  | .modTk => .modC
  | .andTk => .andC
  | .equalsTk => .equalsC
  | .notEqualsTk => .notEqualsC
  | .greaterThanTk => .greaterThanC
  | .lessThanTk => .lessThanC
  | .greaterEqualsTk => .greaterEqualsC
  | .lessEqualsTk => .lessEqualsC
  | .openingParenthesisTk => .openingParenthesisC
  | .closingParenthesisTk => .closingParenthesisC
  | .integerConstTk _ => .integerConstC
  | .realConstTk _ => .realConstC
  | .charConstantTk _ => .charConstantC
  | .trueTk => .trueC
  | .falseTk => .falseC
  | .notTk => .notC
  | .eofTk => .eofC

/-- `type.name` / `constructor.name` for the default `eat` message. -/
def className : TokenClass → String
  | .programC => "ProgramToken"
  | .idC => "IdToken"
  | .semiC => "SemiToken"
  | .colonC => "ColonToken"
  | .commaC => "CommaToken"
  | .dotC => "DotToken"
  | .beginC => "BeginToken"
  | .endC => "EndToken"
  | .varC => "VariableToken"
  | .procedureC => "ProcedureToken"
  | .integerC => "IntegerToken"
  | .realC => "RealToken"
  | .booleanC => "BooleanToken"
  | .charC => "CharToken"
  | .ifC => "IfToken"
  | .thenC => "ThenToken"
  | .elseC => "ElseToken"
  | .forC => "ForToken"
  | .toC => "ToToken"
  | .downToC => "DownToToken"
  | .doC => "DoToken"
  | .whileC => "WhileToken"
  | .repeatC => "RepeatToken"
  | .untilC => "UntilToken"
  | .assignC => "AssignToken"
  | .plusC => "PlusToken"
  | .minusC => "MinusToken"
  | .orC => "OrToken"
  | .multiplicationC => "MultiplicationToken"
  | .integerDivisionC => "IntegerDivisionToken"
  | .realDivisionC => "RealDivisionToken"
  | .modC => "ModToken"
  | .andC => "AndToken"
  | .equalsC => "EqualsToken"
  | .notEqualsC => "NotEqualsToken"
  | .greaterThanC => "GreaterThanToken"
  | .lessThanC => "LessThanToken"
  | .greaterEqualsC => "GreaterEqualsToken"
  | .lessEqualsC => "LessEqualsToken"
  | .openingParenthesisC => "OpeningParenthesisToken"
  | .closingParenthesisC => "ClosingParenthesisToken"
  | .integerConstC => "IntegerConstToken"
  | .realConstC => "RealConstToken"
  | .charConstantC => "CharConstantToken"
  | .trueC => "TrueToken"
  | .falseC => "FalseToken"
  | .notC => "NotToken"
  | .eofC => "EofToken"

structure Token where
  kind : TokenKind
  span : Span
  deriving DecidableEq, Repr

/-- `token instanceof SomeTokenClass`. -/
def Token.isa (t : Token) (c : TokenClass) : Bool :=
  classOf t.kind == c

/-- The external lexer keeps yielding an end-of-input token once the source
is exhausted. -/
def eofFallback : Token := ⟨.eofTk, ⟨⟨0, 0⟩, ⟨0, 0⟩⟩⟩

/-- `lexer.getNextToken()` against the remaining token list. -/
def lexerNext : List Token → Token × List Token
  | [] => (eofFallback, [])
  | t :: ts => (t, ts)

end Parser

namespace Parser

/-- Errors raised while parsing: a structured `PSIError` with a reported
location and message; the runtime crash of `this.previousToken!` when no
token has been consumed yet; and fuel exhaustion of the embedding (never hit
at the fuel levels used below). -/
inductive ParseError where
  | psiError (location : Span) (message : String)
  | nullPreviousToken
  | outOfFuel
  deriving DecidableEq, Repr

/-- The parser's mutable fields: the current token, the tokens the lexer has
yet to produce, and the previously consumed token. -/
structure ParserState where
  currentToken : Token
  pending : List Token
  previousToken : Option Token
  deriving DecidableEq, Repr

/-- `previousTokenEndLocationProvider`: both ends of the reported span sit at
the previous token's end position, shifted one column back. -/
def previousTokenEndLocation (t : Token) : Span :=
  ⟨⟨t.span.endPos.linePosition, t.span.endPos.characterPosition - 1⟩,
   ⟨t.span.endPos.linePosition, t.span.endPos.characterPosition - 1⟩⟩

/-- The default `eat` failure message. -/
def defaultEatMessage (current : Token) (type : TokenClass) : String :=
  "Expected type " ++ className (classOf current.kind) ++ " to be " ++
    className type

/-- `eat(type, message?, previousTokenThrow)`: if the current token is of the
expected class, remember it as previous and advance to the lexer's next
token; otherwise fail with a `PSIError` located at the current token's span
or (when `previousTokenThrow`) just after the previous token. -/
def eat (s : ParserState) (type : TokenClass) (message : Option String)
    (previousTokenThrow : Bool) : Except ParseError ParserState :=
  if s.currentToken.isa type then
    let (next, rest) := lexerNext s.pending
    .ok ⟨next, rest, some s.currentToken⟩
  else if previousTokenThrow then
    match s.previousToken with
    | none => .error .nullPreviousToken
    | some pt =>
      .error (.psiError (previousTokenEndLocation pt)
        ((message.getD (defaultEatMessage s.currentToken type))))
  else
    .error (.psiError s.currentToken.span
      ((message.getD (defaultEatMessage s.currentToken type))))

/-- `lexer.peekNextToken()`. -/
def peek (s : ParserState) : Token :=
  (lexerNext s.pending).1

/-- The AST node variants the embedded productions build.  Every node carries
the span it inherited from the token (or node) that began its rule. -/
inductive Ast where
  | variableAst (name : String) (span : Span)
  | emptyAst (span : Span)
  | integerConstantAst (value : Int) (span : Span)
  | realConstantAst (value : String) (span : Span)
  | charConstantAst (value : String) (span : Span)
  | trueAst (span : Span)
  | falseAst (span : Span)
  | unaryPlusAst (operand : Ast) (span : Span)
  | unaryMinusAst (operand : Ast) (span : Span)
  | notAst (operand : Ast) (span : Span)
  | plusAst (left right : Ast) (span : Span)
  | minusAst (left right : Ast) (span : Span)
  | orAst (left right : Ast) (span : Span)
  | multiplicationAst (left right : Ast) (span : Span)
  | integerDivisionAst (left right : Ast) (span : Span)
  | realDivisionAst (left right : Ast) (span : Span)
  | modAst (left right : Ast) (span : Span)
  | andAst (left right : Ast) (span : Span)
  | equalsAst (left right : Ast) (span : Span)
  | notEqualsAst (left right : Ast) (span : Span)
  | greaterThanAst (left right : Ast) (span : Span)
  | lessThanAst (left right : Ast) (span : Span)
  | greaterEqualsAst (left right : Ast) (span : Span)
  | lessEqualsAst (left right : Ast) (span : Span)
  | assignmentAst (left right : Ast) (span : Span)
  | callAst (name : String) (args : List Ast) (span : Span)
  | compoundAst (statements : List Ast) (span : Span)
  | ifAst (condition body : Ast) (next : Option Ast) (span : Span)
  | forAst (assignment : Ast) (incrementValue : Bool) (incrementSpan : Span)
      (finalValue : Ast) (body : Ast) (span : Span)
  | whileAst (condition body : Ast) (span : Span)
  | repeatAst (condition : Ast) (statements : List Ast) (span : Span)

/-- `VariableAST.name` (`""` is never observed: every construction site goes
through the `IdToken` gate). -/
def Ast.variableName : Ast → String
  | .variableAst n _ => n
  | _ => ""

/-- `token.value` for an identifier token (non-identifier tokens fail the
`eat(IdToken)` that immediately follows every read, so the `""` placeholder
is unobservable). -/
def tokenIdValue (t : Token) : String :=
  match t.kind with
  | .idTk v => v
  | _ => ""

/-- `integerConstToken.value`. -/
def tokenIntValue (t : Token) : Int :=
  match t.kind with
  | .integerConstTk v => v
  | _ => 0

/-- `realConstToken.value`. -/
def tokenRealValue (t : Token) : String :=
  match t.kind with
  | .realConstTk v => v
  | _ => ""

/-- `charConstantToken.value`. -/
def tokenCharValue (t : Token) : String :=
  match t.kind with
  | .charConstantTk v => v
  | _ => ""

/-- `variable()`: build a `VariableAST` from the current token's value and
position, then consume an `IdToken`. -/
def variableRule (s : ParserState) : Except ParseError (Ast × ParserState) := do
  let node := Ast.variableAst (tokenIdValue s.currentToken) s.currentToken.span
  let s1 ← eat s .idC none false
  return (node, s1)

/-- `empty()`: an `EmptyAST` tagged with the current token's position;
nothing is consumed. -/
def emptyRule (s : ParserState) : Ast :=
  .emptyAst s.currentToken.span

/-- Modelled from the spec: `IfAST.addNext` (the concrete `IfAST` class lives
in the external part of the `ast` module, not under `src/`) stores the given
node in the If node's single optional `next` alternative slot. -/
def setNext : Ast → Option Ast → Ast
  | .ifAst c b _ sp, nxt => .ifAst c b nxt sp
  | a, _ => a

mutual

/-- `expression()`: a term, optionally followed by one `+`/`-`/`or` whose
right operand recurses into `expression` itself. -/
def expression : Nat → ParserState → Except ParseError (Ast × ParserState)
  | 0, _ => .error .outOfFuel
  | fuel + 1, s0 => do
    let (node, s) ← term fuel s0
    let savedToken := s.currentToken
    if s.currentToken.isa .plusC then do
      let s ← eat s .plusC none false
      let (right, s) ← expression fuel s
      return (.plusAst node right savedToken.span, s)
    else if s.currentToken.isa .minusC then do
      let s ← eat s .minusC none false
      let (right, s) ← expression fuel s
      return (.minusAst node right savedToken.span, s)
    else if s.currentToken.isa .orC then do
      let s ← eat s .orC none false
      let (right, s) ← expression fuel s
      return (.orAst node right savedToken.span, s)
    else
      return (node, s)

/-- `term()`: a comparison, optionally followed by one
`*`/`div`/`/`/`mod`/`and` whose right operand recurses into `term`. -/
def term : Nat → ParserState → Except ParseError (Ast × ParserState)
  | 0, _ => .error .outOfFuel
  | fuel + 1, s0 => do
    let (node, s) ← comparison fuel s0
    let savedToken := s.currentToken
    if s.currentToken.isa .multiplicationC then do
      let s ← eat s .multiplicationC none false
      let (right, s) ← term fuel s
      return (.multiplicationAst node right savedToken.span, s)
    else if s.currentToken.isa .integerDivisionC then do
      let s ← eat s .integerDivisionC none false
      let (right, s) ← term fuel s
      return (.integerDivisionAst node right savedToken.span, s)
    else if s.currentToken.isa .realDivisionC then do
      let s ← eat s .realDivisionC none false
      let (right, s) ← term fuel s
      return (.realDivisionAst node right savedToken.span, s)
    else if s.currentToken.isa .modC then do
      let s ← eat s .modC none false
      let (right, s) ← term fuel s
      return (.modAst node right savedToken.span, s)
    else if s.currentToken.isa .andC then do
      let s ← eat s .andC none false
      let (right, s) ← term fuel s
      return (.andAst node right savedToken.span, s)
    else
      return (node, s)

/-- `comparison()`: a factor, optionally followed by one
`=`/`<>`/`>`/`<`/`>=`/`<=` whose right operand recurses into `comparison`. -/
def comparison : Nat → ParserState → Except ParseError (Ast × ParserState)
  | 0, _ => .error .outOfFuel
  | fuel + 1, s0 => do
    let (node, s) ← factor fuel s0
    let savedToken := s.currentToken
    if s.currentToken.isa .equalsC then do
      let s ← eat s .equalsC none false
      let (right, s) ← comparison fuel s
      return (.equalsAst node right savedToken.span, s)
    else if s.currentToken.isa .notEqualsC then do
      let s ← eat s .notEqualsC none false
      let (right, s) ← comparison fuel s
      return (.notEqualsAst node right savedToken.span, s)
    else if s.currentToken.isa .greaterThanC then do
      let s ← eat s .greaterThanC none false
      let (right, s) ← comparison fuel s
      return (.greaterThanAst node right savedToken.span, s)
    else if s.currentToken.isa .lessThanC then do
      let s ← eat s .lessThanC none false
      let (right, s) ← comparison fuel s
      return (.lessThanAst node right savedToken.span, s)
    else if s.currentToken.isa .greaterEqualsC then do
      let s ← eat s .greaterEqualsC none false
      let (right, s) ← comparison fuel s
      return (.greaterEqualsAst node right savedToken.span, s)
    else if s.currentToken.isa .lessEqualsC then do
      let s ← eat s .lessEqualsC none false
      let (right, s) ← comparison fuel s
      return (.lessEqualsAst node right savedToken.span, s)
    else
      return (node, s)

/-- `factor()`: unary `+`/`-`/`not`, literals, a parenthesised expression, or
a variable reference. -/
def factor : Nat → ParserState → Except ParseError (Ast × ParserState)
  | 0, _ => .error .outOfFuel
  | fuel + 1, s0 => do
    let savedToken := s0.currentToken
    if s0.currentToken.isa .plusC then do
      let s ← eat s0 .plusC none false
      let (operand, s) ← factor fuel s
      return (.unaryPlusAst operand savedToken.span, s)
    else if s0.currentToken.isa .minusC then do
      let s ← eat s0 .minusC none false
      let (operand, s) ← factor fuel s
      return (.unaryMinusAst operand savedToken.span, s)
    else if s0.currentToken.isa .integerConstC then do
      let value := tokenIntValue s0.currentToken
      let s ← eat s0 .integerConstC none false
      return (.integerConstantAst value savedToken.span, s)
    else if s0.currentToken.isa .realConstC then do
      let value := tokenRealValue s0.currentToken
      let s ← eat s0 .realConstC none false
      return (.realConstantAst value savedToken.span, s)
    else if s0.currentToken.isa .openingParenthesisC then do
      let s ← eat s0 .openingParenthesisC none false
      let (result, s) ← expression fuel s
      let s ← eat s .closingParenthesisC none false
      return (result, s)
    else if s0.currentToken.isa .trueC then do
      let s ← eat s0 .trueC none false
      return (.trueAst savedToken.span, s)
    else if s0.currentToken.isa .falseC then do
      let s ← eat s0 .falseC none false
      return (.falseAst savedToken.span, s)
    else if s0.currentToken.isa .charConstantC then do
      let character := tokenCharValue s0.currentToken
      let s ← eat s0 .charConstantC none false
      return (.charConstantAst character savedToken.span, s)
    else if s0.currentToken.isa .notC then do
      let s ← eat s0 .notC none false
      let (operand, s) ← factor fuel s
      return (.notAst operand savedToken.span, s)
    else
      variableRule s0

/-- `call()`: a procedure/function call statement; the node inherits its
position from the name node (the identifier token's span). -/
def call : Nat → ParserState → Except ParseError (Ast × ParserState)
  | 0, _ => .error .outOfFuel
  | fuel + 1, s0 => do
    let (nameAst, s) ← variableRule s0
    let name := nameAst.variableName
    let nameSpan := s0.currentToken.span
    let s ← eat s .openingParenthesisC none false
    let (args, s) ←
      if s.currentToken.isa .closingParenthesisC then
        pure (([] : List Ast), s)
      else do
        let (first, s) ← expression fuel s
        let (rest, s) ← callArgsLoop fuel s
        pure (first :: rest, s)
    let s ← eat s .closingParenthesisC
      (some "Expected closing parenthesis after procedure/function call") true
    return (.callAst name args nameSpan, s)

/-- The `while (currentToken instanceof CommaToken)` argument loop of
`call()`. -/
def callArgsLoop : Nat → ParserState → Except ParseError (List Ast × ParserState)
  | 0, _ => .error .outOfFuel
  | fuel + 1, s0 =>
    if s0.currentToken.isa .commaC then do
      let s ← eat s0 .commaC none false
      let (a, s) ← expression fuel s
      let (rest, s) ← callArgsLoop fuel s
      return (a :: rest, s)
    else
      return ([], s0)

/-- `assignmentExpression()`: a variable, the `:=` gate (reporting "Invalid
statement" just after the variable when absent), and an expression. -/
def assignmentExpression : Nat → ParserState → Except ParseError (Ast × ParserState)
  | 0, _ => .error .outOfFuel
  | fuel + 1, s0 => do
    let (left, s) ← variableRule s0
    let assignmentToken := s.currentToken
    let s ← eat s .assignC (some "Invalid statement") true
    let (right, s) ← expression fuel s
    return (.assignmentAst left right assignmentToken.span, s)

/-- `statement()`: dispatch on the current token (with one token of lookahead
to split calls from assignments); anything else is an empty statement. -/
def statement : Nat → ParserState → Except ParseError (Ast × ParserState)
  | 0, _ => .error .outOfFuel
  | fuel + 1, s0 =>
    if s0.currentToken.isa .beginC then
      compoundStatement fuel s0
    else if s0.currentToken.isa .idC && (peek s0).isa .openingParenthesisC then
      call fuel s0
    else if s0.currentToken.isa .idC then
      assignmentExpression fuel s0
    else if s0.currentToken.isa .ifC then
      ifStatement fuel s0
    else if s0.currentToken.isa .forC then
      forRule fuel s0
    else if s0.currentToken.isa .whileC then
      whileRule fuel s0
    else if s0.currentToken.isa .repeatC then
      repeatRule fuel s0
    else
      .ok (emptyRule s0, s0)

/-- `compoundStatement()`: `begin` StatementList `end`. -/
def compoundStatement : Nat → ParserState → Except ParseError (Ast × ParserState)
  | 0, _ => .error .outOfFuel
  | fuel + 1, s0 => do
    let beginToken := s0.currentToken
    let s ← eat s0 .beginC none false
    let (statements, s) ← statementList fuel s
    let s ← eat s .endC (some "Expected compound statement to end with end") false
    return (.compoundAst statements beginToken.span, s)

/-- `statementList()`: a statement, then the semicolon loop; afterwards the
current token must be a terminator (`end`/`until`) or the previous token must
have been a semicolon, otherwise a missing-separator error is raised just
after the previous token. -/
def statementList : Nat → ParserState → Except ParseError (List Ast × ParserState)
  | 0, _ => .error .outOfFuel
  | fuel + 1, s0 => do
    let (first, s) ← statement fuel s0
    let (rest, s) ← statementListLoop fuel s
    let statements := first :: rest
    if !(s.currentToken.isa .endC || s.currentToken.isa .untilC) &&
        !(match s.previousToken with
          | some t => t.isa .semiC
          | none => false) then
      match s.previousToken with
      | none => .error .nullPreviousToken
      | some pt =>
        .error (.psiError (previousTokenEndLocation pt)
          "Expected statement to end with a semi colon")
    else
      return (statements, s)

/-- The `while (currentToken instanceof SemiToken)` loop of
`statementList()`. -/
def statementListLoop : Nat → ParserState → Except ParseError (List Ast × ParserState)
  | 0, _ => .error .outOfFuel
  | fuel + 1, s0 =>
    if s0.currentToken.isa .semiC then do
      let s ← eat s0 .semiC none false
      let (st, s) ← statement fuel s
      let (rest, s) ← statementListLoop fuel s
      return (st :: rest, s)
    else
      return ([], s0)

/-- `if()`: `if` Expr `then` Statement, producing an `IfAST` whose `next`
slot is initially empty. -/
def ifRule : Nat → ParserState → Except ParseError (Ast × ParserState)
  | 0, _ => .error .outOfFuel
  | fuel + 1, s0 => do
    let ifToken := s0.currentToken
    let s ← eat s0 .ifC none false
    let (expr, s) ← expression fuel s
    let s ← eat s .thenC (some "Expected then after if condition") true
    let (stmt, s) ← statement fuel s
    return (.ifAst expr stmt none ifToken.span, s)

/-- `ifStatement()`: the first `If`, then the `else` chain hung onto it
through the `next` links. -/
def ifStatement : Nat → ParserState → Except ParseError (Ast × ParserState)
  | 0, _ => .error .outOfFuel
  | fuel + 1, s0 => do
    let (firstIf, s) ← ifRule fuel s0
    let (chain, s) ← ifChainLinks fuel s
    return (setNext firstIf chain, s)

/-- The `while (currentToken instanceof ElseToken)` loop of `ifStatement()`,
returning the materialised `next` chain of the preceding `If`.  After an
`else if`, `currentIf` advances to the new `If`, so later links hang off it;
after a terminal `else` statement, `currentIf` stays put, so a later link
overwrites that statement in the same `next` slot. -/
def ifChainLinks : Nat → ParserState → Except ParseError (Option Ast × ParserState)
  | 0, _ => .error .outOfFuel
  | fuel + 1, s0 =>
    if s0.currentToken.isa .elseC then do
      let s ← eat s0 .elseC none false
      if s.currentToken.isa .ifC then do
        let (newIf, s) ← ifRule fuel s
        let (rest, s) ← ifChainLinks fuel s
        return (some (setNext newIf rest), s)
      else do
        let (st, s) ← statement fuel s
        let (rest, s) ← ifChainLinks fuel s
        return (some (rest.getD st), s)
    else
      return (none, s0)

/-- `for()`: `for` Assignment (`to`|`downto`) Expr `do` Statement. -/
def forRule : Nat → ParserState → Except ParseError (Ast × ParserState)
  | 0, _ => .error .outOfFuel
  | fuel + 1, s0 => do
    let forToken := s0.currentToken
    let s ← eat s0 .forC none false
    let (assignment, s) ← assignmentExpression fuel s
    let (incrementValue, incrementSpan, s) ←
      if s.currentToken.isa .toC then do
        let sp := s.currentToken.span
        let s ← eat s .toC none false
        pure (true, sp, s)
      else if s.currentToken.isa .downToC then do
        let sp := s.currentToken.span
        let s ← eat s .downToC none false
        pure (false, sp, s)
      else
        match s.previousToken with
        | none => .error ParseError.nullPreviousToken
        | some pt =>
          .error (.psiError (previousTokenEndLocation pt)
            "Expected to/down to after for")
    let (finalValue, s) ← expression fuel s
    let s ← eat s .doC (some "Expected do after for header") true
    let (body, s) ← statement fuel s
    return (.forAst assignment incrementValue incrementSpan finalValue body
      forToken.span, s)

/-- `while()`: `while` Expr `do` Statement. -/
def whileRule : Nat → ParserState → Except ParseError (Ast × ParserState)
  | 0, _ => .error .outOfFuel
  | fuel + 1, s0 => do
    let whileToken := s0.currentToken
    let s ← eat s0 .whileC none false
    let (condition, s) ← expression fuel s
    let s ← eat s .doC (some "Expected do after while condition") true
    let (stmt, s) ← statement fuel s
    return (.whileAst condition stmt whileToken.span, s)

/-- `repeat()`: `repeat` StatementList `until` Expr. -/
def repeatRule : Nat → ParserState → Except ParseError (Ast × ParserState)
  | 0, _ => .error .outOfFuel
  | fuel + 1, s0 => do
    let repeatToken := s0.currentToken
    let s ← eat s0 .repeatC none false
    let (statements, s) ← statementList fuel s
    let s ← eat s .untilC (some "Expected until at the end of a repeat loop") true
    let (condition, s) ← expression fuel s
    return (.repeatAst condition statements repeatToken.span, s)

end

end Parser

/-! ## Shared helper lemmas -/

theorem except_bind_ok {ε α β : Type} (a : α) (f : α → Except ε β) :
    ((Except.ok a : Except ε α) >>= f) = f a := rfl

theorem except_pure_eq_ok {ε α : Type} (a : α) :
    (pure a : Except ε α) = Except.ok a := rfl

theorem getD_set_self {α : Type} :
    ∀ (l : List α) (i : Nat) (a d : α), i < l.length →
      (l.set i a).getD i d = a
  | [], i, _, _, h => absurd h (by simp)
  | _ :: _, 0, _, _, _ => rfl
  | _ :: xs, i + 1, a, d, h => getD_set_self xs i a d (by simpa using h)

theorem getD_set_ne {α : Type} :
    ∀ (l : List α) (i j : Nat) (a d : α), i ≠ j →
      (l.set i a).getD j d = l.getD j d
  | [], _, _, _, _, _ => by simp
  | _ :: _, 0, 0, _, _, h => absurd rfl h
  | _ :: _, 0, _ + 1, _, _, _ => rfl
  | _ :: _, _ + 1, 0, _, _, _ => rfl
  | _ :: xs, i + 1, j + 1, a, d, h =>
    getD_set_ne xs i j a d (fun e => h (by omega))

namespace PSI

theorem cimGet_cimSet_self {α : Type} (m : List (String × α)) (k : String)
    (v : α) : cimGet (cimSet m k v) k = some v := by
  simp [cimGet, cimSet, keyEq, List.find?]

/-- Whenever `findScope` finds a scope, that scope is the outward-first frame
whose own declaration table contains the name. -/
theorem findScopeIdx_spec :
    ∀ (chain : List Frame) (name : String) (i : Nat),
      findScopeIdx chain name = some i →
      i < chain.length ∧
      cimHas (chain.getD i nullFrame).scope name = true ∧
      ∀ j, j < i → cimHas (chain.getD j nullFrame).scope name = false
  | [], name, i, h => by simp [findScopeIdx] at h
  | f :: rest, name, i, h => by
    by_cases hf : cimHas f.scope name
    · simp [findScopeIdx, hf] at h
      subst h
      exact ⟨by simp, hf, fun j hj => absurd hj (by omega)⟩
    · simp [findScopeIdx, hf] at h
      obtain ⟨i', hi', rfl⟩ := h
      obtain ⟨h1, h2, h3⟩ := findScopeIdx_spec rest name i' hi'
      refine ⟨by simpa using h1, h2, fun j hj => ?_⟩
      cases j with
      | zero => simpa using hf
      | succ j' => exact h3 j' (by omega)

end PSI

namespace PSI

/-- C1: the spec/claim describe `resolveValue` as an outward-walking lookup —
a value stored only in an ancestor scope should be found from a descendant
scope.  The code violates this: its condition
`result && type ? result instanceof type : true` (unparenthesised, unlike the
sibling `resolve`) is `true` whenever the local entry is absent, so the raw
absent result is returned and the parent is never consulted.  Here the global
frame holds a value for `x`, resolving `x` on the global frame alone finds
it, and the correctly parenthesised `resolve` walks outward from the inner
frame — yet `resolveValue` from the inner frame returns nothing. -/
theorem resolveValue_skips_ancestor_values :
    resolveValue [⟨"inner", [], []⟩, ⟨"global", [], [("x", .int 7)]⟩] "x" none
      = none ∧
    resolveValue [⟨"global", [], [("x", .int 7)]⟩] "x" none = some (.int 7) ∧
    resolve [⟨"inner", [], []⟩,
        ⟨"global", [("x", .procedureSymbol "x")], []⟩] "x" none
      = some (.procedureSymbol "x") :=
  ⟨rfl, rfl, rfl⟩

/-- C6: `insert` fails with a redeclaration error exactly when the symbol's
case-insensitive name is already in this scope's own declaration table;
otherwise it inserts the symbol and, for a variable symbol whose type has a
default value, seeds the value table with that default; inserting into a
fresh nested scope always succeeds (shadowing), since only the receiving
scope's own table is consulted. -/
theorem insert_redeclaration_spec (f : Frame) (sym : PSISymbol) :
    (f.hasSymbol sym = true →
      insert f sym = .error
        (.redeclaration sym ("Symbol " ++ sym.name ++ " is being redeclared"))) ∧
    (f.hasSymbol sym = false →
      ∃ f', insert f sym = .ok f' ∧
        cimGet f'.scope sym.name = some sym ∧
        ∀ vname t d, sym = .variableSymbol vname t → t.defaultValue = some d →
          cimGet f'.value sym.name = some d) ∧
    (∀ scopeName : String, ∃ f', insert ⟨scopeName, [], []⟩ sym = .ok f') := by
  refine ⟨fun h => by simp [insert, h], fun h => ?_, fun scopeName => ?_⟩
  · have key : insert f sym = .ok
        { f with
          scope := cimSet f.scope sym.name sym
          value := seededValue f sym } := by
      simp [insert, h]
    refine ⟨_, key, cimGet_cimSet_self _ _ _, ?_⟩
    intro vname t d hsym hdef
    subst hsym
    simp only [seededValue, hdef]
    exact cimGet_cimSet_self _ _ _
  · exact ⟨_, rfl⟩

/-- C7: `changeValue` walks the declaration-table chain (not the value-table
chain) outward to the first scope declaring the name, and overwrites that
scope's value-table entry; every other frame of the chain is untouched, so
the value ends up stored in the declaring scope even when `changeValue` is
invoked on a descendant. -/
theorem changeValue_declaring_scope_spec (chain : List Frame) (name : String)
    (v : PSIDataType) (i : Nat) (h : findScopeIdx chain name = some i) :
    i < chain.length ∧
    cimHas (chain.getD i nullFrame).scope name = true ∧
    (∀ j, j < i → cimHas (chain.getD j nullFrame).scope name = false) ∧
    ∃ chain', changeValue chain name v = .ok chain' ∧
      chain'.length = chain.length ∧
      (chain'.getD i nullFrame).scope = (chain.getD i nullFrame).scope ∧
      resolveValueThisScopeOnly (chain'.getD i nullFrame) name = some v ∧
      ∀ j, j ≠ i → chain'.getD j nullFrame = chain.getD j nullFrame := by
  obtain ⟨hlen, hdecl, hfirst⟩ := findScopeIdx_spec chain name i h
  have key : changeValue chain name v = .ok
      (chain.set i
        { chain.getD i nullFrame with
          value := cimSet (chain.getD i nullFrame).value name v }) := by
    simp [changeValue, h]
  refine ⟨hlen, hdecl, hfirst, _, key, by simp, ?_, ?_, ?_⟩
  · rw [getD_set_self _ _ _ _ hlen]
  · rw [getD_set_self _ _ _ _ hlen]
    exact cimGet_cimSet_self _ _ _
  · intro j hj
    exact getD_set_ne _ _ _ _ _ (fun e => hj e.symm)

/-- C10: `changeValue` and `changeArrayValue` presuppose that the name is
declared somewhere in the chain.  When no scope declares it, `findScope`
yields null and the non-null assertion crashes (an unstructured runtime
`TypeError`, not a scope-model `PSIError` and not a no-op); when some scope
declares it, the `findScope` null branch is unreachable: `changeValue`
succeeds outright and `changeArrayValue` proceeds past the `findScope`
assertion (it can still crash only on its separate value-table assertion). -/
theorem changeValue_undeclared_precondition (chain : List Frame)
    (name : String) (v : PSIDataType) (accessors : List PSIDataType)
    (av : PSIDataType) :
    (findScopeIdx chain name = none →
      changeValue chain name v = .error .findScopeNull ∧
      changeArrayValue chain name accessors av = .error .findScopeNull) ∧
    (∀ i, findScopeIdx chain name = some i →
      (∃ chain', changeValue chain name v = .ok chain') ∧
      (changeArrayValue chain name accessors av = .error .valueNull ∨
        ∃ chain', changeArrayValue chain name accessors av = .ok chain')) := by
  constructor
  · intro h
    exact ⟨by simp [changeValue, h], by simp [changeArrayValue, h]⟩
  · intro i h
    have key : changeValue chain name v = .ok
        (chain.set i
          { chain.getD i nullFrame with
            value := cimSet (chain.getD i nullFrame).value name v }) := by
      simp [changeValue, h]
    refine ⟨⟨_, key⟩, ?_⟩
    cases hr : resolveValueThisScopeOnly (chain.getD i nullFrame) name with
    | none => left; simp only [changeArrayValue, h, hr]
    | some array =>
      have key2 : changeArrayValue chain name accessors av = .ok
          (chain.set i
            { chain.getD i nullFrame with
              value := cimSet (chain.getD i nullFrame).value name
                (arrayContainerChange array accessors av) }) := by
        simp only [changeArrayValue, h, hr]
      exact Or.inr ⟨_, key2⟩

end PSI

namespace ASTree

/-- C2 (counterexample): in the arena `[p, r, n]` with `p = node 0` owning
`r = node 1`, and `n = node 2` freshly created (parent null), `r.replace(n)`
succeeds, splices `n` into `p`'s children and detaches `r` — but `n`'s own
parent link is still null, not `p` as the claim states: `replace` never
writes `node.parent`. -/
theorem replaceNode_newNode_parent_counterexample :
    replaceNode [⟨none, [1]⟩, ⟨some 0, []⟩, ⟨none, []⟩] 1 2 =
      .ok [⟨none, [2]⟩, ⟨none, []⟩, ⟨none, []⟩] ∧
    ¬ (([⟨none, [2]⟩, ⟨none, []⟩, ⟨none, []⟩] : List TreeNode).getD 2
        emptyNode).parent = some 0 :=
  ⟨rfl, by decide⟩

/-- C2 (amended): for a node `r` with parent `p`, found by identity at
position `i` of `p`'s children, `r.replace(n)` overwrites exactly that
position with `n` and sets `r`'s parent to null — but it leaves `n`'s own
parent link unchanged (whatever it was before the call), rather than setting
it to `p`. -/
theorem replaceNode_spec (arena : List TreeNode) (rId nId pId i : Nat)
    (hr : rId < arena.length) (hp : pId < arena.length)
    (hrp : rId ≠ pId) (hnr : nId ≠ rId) (hnp : nId ≠ pId)
    (hparent : (arena.getD rId emptyNode).parent = some pId)
    (hidx : (arena.getD pId emptyNode).children.findIdx?
        (fun c => c == rId) = some i) :
    ∃ arena2, replaceNode arena rId nId = .ok arena2 ∧
      (arena2.getD pId emptyNode).children =
        (arena.getD pId emptyNode).children.set i nId ∧
      (arena2.getD rId emptyNode).parent = none ∧
      arena2.getD nId emptyNode = arena.getD nId emptyNode := by
  have key : replaceNode arena rId nId = .ok
      ((arena.set pId
          { arena.getD pId emptyNode with
            children := (arena.getD pId emptyNode).children.set i nId }).set rId
        { (arena.set pId
            { arena.getD pId emptyNode with
              children :=
                (arena.getD pId emptyNode).children.set i nId }).getD rId
              emptyNode with
          parent := none }) := by
    simp only [replaceNode, hparent, hidx]
  refine ⟨_, key, ?_, ?_, ?_⟩
  · rw [getD_set_ne _ _ _ _ _ hrp, getD_set_self _ _ _ _ hp]
  · rw [getD_set_self _ _ _ _ (by simpa using hr)]
  · rw [getD_set_ne _ _ _ _ _ (Ne.symm hnr), getD_set_ne _ _ _ _ _ (Ne.symm hnp)]

/-- Witness for the amended C2 theorem at the concrete three-node arena. -/
theorem replaceNode_spec_witness :
    ∃ arena2,
      replaceNode [⟨none, [1]⟩, ⟨some 0, []⟩, ⟨none, []⟩] 1 2 = .ok arena2 ∧
      (arena2.getD 0 emptyNode).children =
        (([⟨none, [1]⟩, ⟨some 0, []⟩, ⟨none, []⟩] :
          List TreeNode).getD 0 emptyNode).children.set 0 2 ∧
      (arena2.getD 1 emptyNode).parent = none ∧
      arena2.getD 2 emptyNode =
        ([⟨none, [1]⟩, ⟨some 0, []⟩, ⟨none, []⟩] :
          List TreeNode).getD 2 emptyNode :=
  replaceNode_spec [⟨none, [1]⟩, ⟨some 0, []⟩, ⟨none, []⟩] 1 2 0 0
    (by decide) (by decide) (by decide) (by decide) (by decide) rfl rfl

end ASTree

namespace Parser

/-- C3: each binary tier is an optional single application whose right
operand recurses into the same tier, so `a op b op c` always parses
right-associatively: `1 + 2 + 3` becomes `Plus(1, Plus(2, 3))` (and likewise
for a Term-tier operator such as `*` and a Comparison-tier operator such as
`=`), never the left-associative `Plus(Plus(1, 2), 3)`. -/
theorem expression_right_associativity (a b c : Int)
    (p1 p2 p3 p4 p5 p6 : Span) (prev : Option Token) :
    expression 50 ⟨⟨.integerConstTk a, p1⟩,
      [⟨.plusTk, p2⟩, ⟨.integerConstTk b, p3⟩, ⟨.plusTk, p4⟩,
       ⟨.integerConstTk c, p5⟩, ⟨.eofTk, p6⟩], prev⟩ =
      .ok (.plusAst (.integerConstantAst a p1)
        (.plusAst (.integerConstantAst b p3) (.integerConstantAst c p5) p4) p2,
        ⟨⟨.eofTk, p6⟩, [], some ⟨.integerConstTk c, p5⟩⟩) ∧
    expression 50 ⟨⟨.integerConstTk a, p1⟩,
      [⟨.multiplicationTk, p2⟩, ⟨.integerConstTk b, p3⟩,
       ⟨.multiplicationTk, p4⟩, ⟨.integerConstTk c, p5⟩, ⟨.eofTk, p6⟩], prev⟩ =
      .ok (.multiplicationAst (.integerConstantAst a p1)
        (.multiplicationAst (.integerConstantAst b p3)
          (.integerConstantAst c p5) p4) p2,
        ⟨⟨.eofTk, p6⟩, [], some ⟨.integerConstTk c, p5⟩⟩) ∧
    expression 50 ⟨⟨.integerConstTk a, p1⟩,
      [⟨.equalsTk, p2⟩, ⟨.integerConstTk b, p3⟩, ⟨.equalsTk, p4⟩,
       ⟨.integerConstTk c, p5⟩, ⟨.eofTk, p6⟩], prev⟩ =
      .ok (.equalsAst (.integerConstantAst a p1)
        (.equalsAst (.integerConstantAst b p3) (.integerConstantAst c p5) p4) p2,
        ⟨⟨.eofTk, p6⟩, [], some ⟨.integerConstTk c, p5⟩⟩) :=
  ⟨rfl, rfl, rfl⟩

/-- C4: the grammar nests Expr over Term over Comparison over Factor, so
`1 + 2 * 3` parses as `Plus(1, Multiplication(2, 3))` (the Term-tier `*`
binds inside the Expr-tier `+`), and `1 * 2 = 3` parses as
`Multiplication(1, Equals(2, 3))` (the Comparison-tier `=` binds inside the
Term-tier `*`). -/
theorem expression_precedence_nesting (a b c : Int)
    (p1 p2 p3 p4 p5 p6 : Span) (prev : Option Token) :
    expression 50 ⟨⟨.integerConstTk a, p1⟩,
      [⟨.plusTk, p2⟩, ⟨.integerConstTk b, p3⟩, ⟨.multiplicationTk, p4⟩,
       ⟨.integerConstTk c, p5⟩, ⟨.eofTk, p6⟩], prev⟩ =
      .ok (.plusAst (.integerConstantAst a p1)
        (.multiplicationAst (.integerConstantAst b p3)
          (.integerConstantAst c p5) p4) p2,
        ⟨⟨.eofTk, p6⟩, [], some ⟨.integerConstTk c, p5⟩⟩) ∧
    expression 50 ⟨⟨.integerConstTk a, p1⟩,
      [⟨.multiplicationTk, p2⟩, ⟨.integerConstTk b, p3⟩, ⟨.equalsTk, p4⟩,
       ⟨.integerConstTk c, p5⟩, ⟨.eofTk, p6⟩], prev⟩ =
      .ok (.multiplicationAst (.integerConstantAst a p1)
        (.equalsAst (.integerConstantAst b p3) (.integerConstantAst c p5) p4) p2,
        ⟨⟨.eofTk, p6⟩, [], some ⟨.integerConstTk c, p5⟩⟩) :=
  ⟨rfl, rfl⟩

/-- C8: parsing `if a then s1 else if b then s2 else s3` yields the first
`If` node carrying a three-link singly-linked `next` chain in source order —
`If(a, s1)` → `If(b, s2)` → `s3` — not a nested binary tree of `If` nodes
(each `si` here is an assignment `xi := vi`). -/
theorem ifStatement_chain_shape (na nx nb ny nz : String) (v1 v2 v3 : Int)
    (p1 p2 p3 p4 p5 p6 p7 p8 p9 p10 p11 p12 p13 p14 p15 p16 p17 p18 : Span)
    (prev : Option Token) :
    statement 50 ⟨⟨.ifTk, p1⟩,
      [⟨.idTk na, p2⟩, ⟨.thenTk, p3⟩,
       ⟨.idTk nx, p4⟩, ⟨.assignTk, p5⟩, ⟨.integerConstTk v1, p6⟩,
       ⟨.elseTk, p7⟩, ⟨.ifTk, p8⟩, ⟨.idTk nb, p9⟩, ⟨.thenTk, p10⟩,
       ⟨.idTk ny, p11⟩, ⟨.assignTk, p12⟩, ⟨.integerConstTk v2, p13⟩,
       ⟨.elseTk, p14⟩, ⟨.idTk nz, p15⟩, ⟨.assignTk, p16⟩,
       ⟨.integerConstTk v3, p17⟩, ⟨.eofTk, p18⟩], prev⟩ =
      .ok (.ifAst (.variableAst na p2)
        (.assignmentAst (.variableAst nx p4) (.integerConstantAst v1 p6) p5)
        (some (.ifAst (.variableAst nb p9)
          (.assignmentAst (.variableAst ny p11) (.integerConstantAst v2 p13) p12)
          (some (.assignmentAst (.variableAst nz p15)
            (.integerConstantAst v3 p17) p16)) p8)) p1,
        ⟨⟨.eofTk, p18⟩, [], some ⟨.integerConstTk v3, p17⟩⟩) :=
  rfl

/-- C9: when the current token is none of `begin`, an identifier, `if`,
`for`, `while`, `repeat`, the statement production returns an `Empty` node
tagged with the current token's position and consumes nothing: the parser
state (current token, pending lookahead, previous token) is unchanged. -/
theorem statement_empty_frame (fuel : Nat) (s : ParserState)
    (h1 : s.currentToken.isa .beginC = false)
    (h2 : s.currentToken.isa .idC = false)
    (h3 : s.currentToken.isa .ifC = false)
    (h4 : s.currentToken.isa .forC = false)
    (h5 : s.currentToken.isa .whileC = false)
    (h6 : s.currentToken.isa .repeatC = false) :
    statement (fuel + 1) s = .ok (.emptyAst s.currentToken.span, s) := by
  simp [statement, emptyRule, h1, h2, h3, h4, h5, h6]

/-- Witness for C9 at a concrete state whose current token is `end`. -/
theorem statement_empty_frame_witness :
    statement 1 ⟨⟨.endTk, ⟨⟨1, 0⟩, ⟨1, 3⟩⟩⟩, [⟨.eofTk, ⟨⟨1, 4⟩, ⟨1, 4⟩⟩⟩], none⟩ =
      .ok (.emptyAst ⟨⟨1, 0⟩, ⟨1, 3⟩⟩,
        ⟨⟨.endTk, ⟨⟨1, 0⟩, ⟨1, 3⟩⟩⟩, [⟨.eofTk, ⟨⟨1, 4⟩, ⟨1, 4⟩⟩⟩], none⟩) :=
  statement_empty_frame 0 _ rfl rfl rfl rfl rfl rfl

/-- C5: after the semicolon loop of a statement list, if the current token
is neither `end` nor `until` and the previously consumed token was not a
semicolon, the statement list fails with the missing-separator error
positioned at the end of the previous token's span shifted one column back;
if the current token is a terminator or the previous token was a semicolon,
the statement list returns the parsed statements. -/
theorem statementList_missing_separator (fuel : Nat) (s0 s1 s2 : ParserState)
    (first : Ast) (rest : List Ast) (pt : Token)
    (hstmt : statement fuel s0 = .ok (first, s1))
    (hloop : statementListLoop fuel s1 = .ok (rest, s2))
    (hprev : s2.previousToken = some pt) :
    ((s2.currentToken.isa .endC = false ∧ s2.currentToken.isa .untilC = false ∧
        pt.isa .semiC = false) →
      statementList (fuel + 1) s0 =
        .error (.psiError (previousTokenEndLocation pt)
          "Expected statement to end with a semi colon")) ∧
    ((s2.currentToken.isa .endC = true ∨ s2.currentToken.isa .untilC = true ∨
        pt.isa .semiC = true) →
      statementList (fuel + 1) s0 = .ok (first :: rest, s2)) := by
  constructor
  · rintro ⟨h1, h2, h3⟩
    simp [statementList, hstmt, hloop, hprev, h1, h2, h3, except_bind_ok]
  · rintro (h | h | h) <;>
      simp [statementList, hstmt, hloop, hprev, h, except_bind_ok,
        except_pure_eq_ok]

end Parser

namespace PSI

/-- Witness for C6: inserting a symbol named `FOO` into a scope that already
declares `foo` (case-insensitively) fails with the redeclaration error, while
inserting the same symbol into a fresh nested scope succeeds (shadowing). -/
theorem insert_redeclaration_spec_witness :
    insert ⟨"global",
        [("foo", .variableSymbol "foo" ⟨"PSIInteger", some (.int 0)⟩)], []⟩
        (.variableSymbol "FOO" ⟨"PSIInteger", some (.int 0)⟩) =
      .error (.redeclaration
        (.variableSymbol "FOO" ⟨"PSIInteger", some (.int 0)⟩)
        "Symbol FOO is being redeclared") ∧
    ∃ f', insert ⟨"nested", [], []⟩
        (.variableSymbol "FOO" ⟨"PSIInteger", some (.int 0)⟩) = .ok f' :=
  ⟨(insert_redeclaration_spec
      ⟨"global", [("foo", .variableSymbol "foo" ⟨"PSIInteger", some (.int 0)⟩)], []⟩
      (.variableSymbol "FOO" ⟨"PSIInteger", some (.int 0)⟩)).1 rfl,
   (insert_redeclaration_spec ⟨"nested", [], []⟩
      (.variableSymbol "FOO" ⟨"PSIInteger", some (.int 0)⟩)).2.2 "nested"⟩

/-- Witness for C7 at a two-frame chain: the inner frame declares nothing,
the global frame declares `x`, and `changeValue` called on the inner frame
stores the value in the global frame. -/
theorem changeValue_declaring_scope_spec_witness :
    (1 : Nat) <
      ([⟨"inner", [], []⟩, ⟨"global", [("x", .procedureSymbol "x")], []⟩]
        : List Frame).length ∧
    cimHas (([⟨"inner", [], []⟩,
        ⟨"global", [("x", .procedureSymbol "x")], []⟩] : List Frame).getD 1
          nullFrame).scope "x" = true ∧
    (∀ j, j < 1 →
      cimHas (([⟨"inner", [], []⟩,
          ⟨"global", [("x", .procedureSymbol "x")], []⟩] : List Frame).getD j
            nullFrame).scope "x" = false) ∧
    ∃ chain', changeValue [⟨"inner", [], []⟩,
        ⟨"global", [("x", .procedureSymbol "x")], []⟩] "x" (.int 5) =
          .ok chain' ∧
      chain'.length =
        ([⟨"inner", [], []⟩, ⟨"global", [("x", .procedureSymbol "x")], []⟩]
          : List Frame).length ∧
      (chain'.getD 1 nullFrame).scope =
        (([⟨"inner", [], []⟩, ⟨"global", [("x", .procedureSymbol "x")], []⟩]
          : List Frame).getD 1 nullFrame).scope ∧
      resolveValueThisScopeOnly (chain'.getD 1 nullFrame) "x" = some (.int 5) ∧
      ∀ j, j ≠ 1 → chain'.getD j nullFrame =
        ([⟨"inner", [], []⟩, ⟨"global", [("x", .procedureSymbol "x")], []⟩]
          : List Frame).getD j nullFrame :=
  changeValue_declaring_scope_spec
    [⟨"inner", [], []⟩, ⟨"global", [("x", .procedureSymbol "x")], []⟩]
    "x" (.int 5) 1 rfl

/-- Witness for C10: on a one-frame chain declaring nothing, both mutation
entry points crash on the `findScope` non-null assertion. -/
theorem changeValue_undeclared_precondition_witness :
    changeValue [⟨"lonely", [], []⟩] "x" (.int 1) = .error .findScopeNull ∧
    changeArrayValue [⟨"lonely", [], []⟩] "x" [] (.int 1) =
      .error .findScopeNull :=
  (changeValue_undeclared_precondition [⟨"lonely", [], []⟩] "x" (.int 1) []
    (.int 1)).1 rfl

end PSI

namespace Parser

/-- A token stream missing the semicolon between `a := 1` and `x := 2`. -/
def missingSemiDemo : ParserState :=
  ⟨⟨.idTk "a", ⟨⟨1, 0⟩, ⟨1, 1⟩⟩⟩,
   [⟨.assignTk, ⟨⟨1, 2⟩, ⟨1, 4⟩⟩⟩, ⟨.integerConstTk 1, ⟨⟨1, 5⟩, ⟨1, 6⟩⟩⟩,
    ⟨.idTk "x", ⟨⟨1, 7⟩, ⟨1, 8⟩⟩⟩, ⟨.assignTk, ⟨⟨1, 9⟩, ⟨1, 11⟩⟩⟩,
    ⟨.integerConstTk 2, ⟨⟨1, 12⟩, ⟨1, 13⟩⟩⟩, ⟨.endTk, ⟨⟨1, 14⟩, ⟨1, 17⟩⟩⟩],
   none⟩

/-- Witness for C5: in `a := 1 x := 2 end` the statement list fails with the
missing-separator error placed one column before the end of the `1` token
(which spans columns 5–6), i.e. at column 5, just after `a := 1`. -/
theorem statementList_missing_separator_witness :
    statementList 31 missingSemiDemo =
      .error (.psiError ⟨⟨1, 5⟩, ⟨1, 5⟩⟩
        "Expected statement to end with a semi colon") :=
  (statementList_missing_separator 30 missingSemiDemo _ _ _ _ _
    rfl rfl rfl).1 ⟨rfl, rfl, rfl⟩

end Parser
